import Mathlib

/-!
Verification of the scheduling engine of `timetable_generator_new.py`
(class `TimeTableGenerator`).

The engine is shallowly embedded: the preprocessed domain data
(`processed_data` dictionary) becomes the structure `ProcessedData`, the
decision-variable dictionary `assignments` becomes the key list
`assignmentKeys`, the four CP-SAT constraint families become the boolean
predicate `satB` on assignments `σ : Key → Bool`, the objective becomes
`objValue`, result extraction becomes `extractTimetable`, and the
`preprocess_data` method becomes `preprocess`.  Machine integers are `Int`,
Python dictionaries are association lists / lookup functions with
last-writer-wins semantics, and Python exceptions are `Option`.
-/

/-- A decision-variable key: the 6-tuple
`(class_name, course_code, teacher, room, day, period)` used as dictionary key
for `assignments` in `TimeTableGenerator.create_model`. -/
structure Key where
  cls : String
  course : String
  teacher : String
  room : String
  day : String
  period : String
deriving DecidableEq, Repr

/-- The value stored for one course code in `processed_data['courses']`
(built in `TimeTableGenerator.preprocess_data`, lines 119-124). -/
structure CourseInfo where
  name : String
  lecturers : List String
  assistants : List String
  credit : Int
deriving DecidableEq, Repr

/-- The `processed_data` dictionary produced by
`TimeTableGenerator.preprocess_data`.  `courses` and `curriculum` model the
Python dict lookups `courses.get(code, {})` and
`curriculum.get(class_name, [])` as total lookup functions. -/
structure ProcessedData where
  classes : List String
  courses : String → Option CourseInfo
  teachers : List String
  rooms : List String
  curriculum : String → List String
  days : List String
  periods : List (String × Int)

/-- The fixed weekday list from `TimeTableGenerator.__init__` (line 31). -/
def defaultDays : List String :=
  ["Lundi", "Mardi", "Mercredi", "Jeudi", "Vendredi", "Samedi"]

/-- The fixed `(period_label, weight)` list from `TimeTableGenerator.__init__`
(lines 32-38). -/
def defaultPeriods : List (String × Int) :=
  [("07:00-09:55", 1), ("10:05-12:55", 2), ("13:05-15:55", 3),
   ("16:05-18:55", 4), ("19:05-21:55", 5)]

/-- Helper for `firstDedup`: drop elements already seen, accumulating the
seen set. -/
def firstDedupAux {α : Type} [DecidableEq α] (seen : List α) : List α → List α
  | [] => []
  | a :: as =>
    if a ∈ seen then firstDedupAux seen as
    else a :: firstDedupAux (a :: seen) as

/-- Keep the first occurrence of every element, dropping later duplicates:
the key set of a Python dict populated by repeated insertion. -/
def firstDedup {α : Type} [DecidableEq α] (l : List α) : List α :=
  firstDedupAux [] l

/-- Python `str.strip()`: drop leading and trailing whitespace. -/
def pyStrip (s : String) : String :=
  String.mk (((s.toList.dropWhile Char.isWhitespace).reverse.dropWhile
    Char.isWhitespace).reverse)

/-- `courses.get(course_code, {}).get('lecturers', []) + ....get('assistants', [])`
from `create_model` line 170. -/
def eligibleTeachers (pd : ProcessedData) (co : String) : List String :=
  match pd.courses co with
  | some info => info.lecturers ++ info.assistants
  | none => []

/-- The sentinel teacher substituted when a course has no eligible teachers
(`create_model` lines 172-174). -/
def unassignedTeacher : String := "Non assigné"

/-- `teachers_for_course` after the sentinel fallback of lines 172-174. -/
def teachersForCourse (pd : ProcessedData) (co : String) : List String :=
  let ts := eligibleTeachers pd co
  if ts.isEmpty then [unassignedTeacher] else ts

/-- The teacher loop of lines 176-178 skips entries whose stripped form is
empty (`if not isinstance(teacher, str) or not teacher.strip(): continue`). -/
def validTeachers (pd : ProcessedData) (co : String) : List String :=
  (teachersForCourse pd co).filter fun t => decide ¬(pyStrip t = "")

/-- The decision-variable construction loop of `create_model` lines 167-186,
in loop order: classes, curriculum courses, teachers, rooms, days, periods. -/
def buildAssignments (pd : ProcessedData) : List Key :=
  pd.classes.flatMap fun cl =>
    (pd.curriculum cl).flatMap fun co =>
      (validTeachers pd co).flatMap fun t =>
        pd.rooms.flatMap fun r =>
          pd.days.flatMap fun d =>
            pd.periods.map fun pw => ⟨cl, co, t, r, d, pw.1⟩

/-- The key set of the `assignments` dict: repeated insertion of the same
6-tuple keeps one dict entry at the first insertion position. -/
def assignmentKeys (pd : ProcessedData) : List Key :=
  firstDedup (buildAssignments pd)

/-- The variable group filtered in constraint family 1 (lines 193-196):
all assignment keys of one `(class, course)` pair. -/
def groupCC (pd : ProcessedData) (cl co : String) : List Key :=
  (assignmentKeys pd).filter fun k => k.cls == cl && k.course == co

/-- The variable group of constraint family 2 (lines 204-207):
all assignment keys of one `(class, day, period)` triple. -/
def groupClassSlot (pd : ProcessedData) (cl d p : String) : List Key :=
  (assignmentKeys pd).filter fun k => k.cls == cl && k.day == d && k.period == p

/-- The variable group of constraint family 3 (lines 215-218):
all assignment keys of one `(room, day, period)` triple. -/
def groupRoomSlot (pd : ProcessedData) (r d p : String) : List Key :=
  (assignmentKeys pd).filter fun k => k.room == r && k.day == d && k.period == p

/-- The variable group of constraint family 4 (lines 226-229):
all assignment keys of one `(teacher, day, period)` triple. -/
def groupTeacherSlot (pd : ProcessedData) (t d p : String) : List Key :=
  (assignmentKeys pd).filter fun k => k.teacher == t && k.day == d && k.period == p

/-- Number of variables of a group that a boolean assignment sets to true. -/
def countTrue (σ : Key → Bool) (l : List Key) : Nat :=
  l.countP σ

/-- Constraint family 1 (lines 190-198): `AddExactlyOne` over every nonempty
`(class, course)` group. -/
def exactlyOneOK (pd : ProcessedData) (σ : Key → Bool) : Bool :=
  pd.classes.all fun cl =>
    (pd.curriculum cl).all fun co =>
      (groupCC pd cl co).isEmpty || decide (countTrue σ (groupCC pd cl co) = 1)

/-- Constraint family 2 (lines 200-209): `AddAtMostOne` over every nonempty
`(class, day, period)` group. -/
def classSlotOK (pd : ProcessedData) (σ : Key → Bool) : Bool :=
  pd.classes.all fun cl =>
    pd.days.all fun d =>
      pd.periods.all fun pw =>
        (groupClassSlot pd cl d pw.1).isEmpty ||
          decide (countTrue σ (groupClassSlot pd cl d pw.1) ≤ 1)

/-- Constraint family 3 (lines 211-220): `AddAtMostOne` over every nonempty
`(room, day, period)` group. -/
def roomSlotOK (pd : ProcessedData) (σ : Key → Bool) : Bool :=
  pd.rooms.all fun r =>
    pd.days.all fun d =>
      pd.periods.all fun pw =>
        (groupRoomSlot pd r d pw.1).isEmpty ||
          decide (countTrue σ (groupRoomSlot pd r d pw.1) ≤ 1)

/-- Constraint family 4 (lines 222-231): `AddAtMostOne` over every nonempty
`(teacher, day, period)` group, iterating over `processed_data['teachers']`
only. -/
def teacherSlotOK (pd : ProcessedData) (σ : Key → Bool) : Bool :=
  pd.teachers.all fun t =>
    pd.days.all fun d =>
      pd.periods.all fun pw =>
        (groupTeacherSlot pd t d pw.1).isEmpty ||
          decide (countTrue σ (groupTeacherSlot pd t d pw.1) ≤ 1)

/-- A boolean assignment satisfies the CP-SAT model built by `create_model`
iff all four constraint families hold.  Any solution CP-SAT returns with
status `OPTIMAL` or `FEASIBLE` satisfies this predicate. -/
def satB (pd : ProcessedData) (σ : Key → Bool) : Bool :=
  exactlyOneOK pd σ && classSlotOK pd σ && roomSlotOK pd σ && teacherSlotOK pd σ

/-- The objective coefficient of one variable (`create_model` line 240):
`next((5 - w for p, w in periods if p == period), 0)`. -/
def objCoeff (pd : ProcessedData) (k : Key) : Int :=
  match pd.periods.find? fun pw => pw.1 == k.period with
  | some pw => 5 - pw.2
  | none => 0

/-- The maximized objective (lines 241-244): sum of coefficient times
variable value over all assignment variables. -/
def objValue (pd : ProcessedData) (σ : Key → Bool) : Int :=
  ((assignmentKeys pd).map fun k => objCoeff pd k * (if σ k then 1 else 0)).sum

/-- Maximum of a list of integers, `none` on the empty list. -/
def listMaxInt (l : List Int) : Option Int :=
  l.foldl (fun acc x =>
    match acc with
    | none => some x
    | some m => some (max m x)) none

/-- Interpret a finite key set as a boolean assignment. -/
def ofKeySet (s : List Key) : Key → Bool :=
  fun k => decide (k ∈ s)

/-- The objective value of an optimal solution of the model: the maximum of
the objective over all constraint-satisfying assignments (every assignment is
determined by the subset of assignment keys it sets to true). -/
def optValue (pd : ProcessedData) : Option Int :=
  listMaxInt (((assignmentKeys pd).sublists.filter fun s => satB pd (ofKeySet s)).map
    fun s => objValue pd (ofKeySet s))

/-- One cell of the produced timetable
(`create_model` lines 272-277). -/
structure Entry where
  course : String
  teacher : String
  room : String
  course_name : String
deriving DecidableEq, Repr

/-- The nested `timetable[class][day][period]` dict as a lookup function. -/
def Timetable : Type := String → String → String → Option Entry

/-- The cell stored for a true variable, with the course-name lookup
`courses.get(course_code, {}).get('name', 'Inconnu')` of line 276. -/
def entryOf (pd : ProcessedData) (k : Key) : Entry :=
  { course := k.course
    teacher := k.teacher
    room := k.room
    course_name := ((pd.courses k.course).map fun i => i.name).getD "Inconnu" }

/-- `self.timetable[class_name][day][period] = {...}`: plain dict assignment,
overwriting whatever was stored at that `(class, day, period)` before. -/
def tableInsert (acc : Timetable) (k : Key) (e : Entry) : Timetable :=
  fun cl d p =>
    if k.cls == cl && k.day == d && k.period == p then some e else acc cl d p

/-- The result-extraction loop of `create_model` lines 260-277: iterate the
assignment dict in insertion order and store a cell for every variable the
solver set to true. -/
def extractTimetable (pd : ProcessedData) (σ : Key → Bool) : Timetable :=
  (assignmentKeys pd).foldl
    (fun acc k => if σ k then tableInsert acc k (entryOf pd k) else acc)
    (fun _ _ _ => none)

/-- The CP-SAT terminal statuses relevant to `solver.Solve(model)`. -/
inductive CpStatus where
  | unknown
  | modelInvalid
  | feasible
  | infeasible
  | optimal
deriving DecidableEq, Repr

/-- What `create_model` surfaces to its caller after solving
(lines 256-282): the extracted timetable for status `OPTIMAL` or `FEASIBLE`
(where `σ` is the variable assignment the solver returned), and `none`
(Python `return False`) for every other status. -/
def solveReturn (pd : ProcessedData) (st : CpStatus) (σ : Key → Bool) :
    Option Timetable :=
  match st with
  | .optimal => some (extractTimetable pd σ)
  | .feasible => some (extractTimetable pd σ)
  | _ => none

/-- The guard at the top of `create_model` (lines 154-156): refuse to build
the model when `processed_data` has no classes.  This is the only check that
runs before variable construction. -/
def modelPrecheck (pd : ProcessedData) : Bool :=
  !pd.classes.isEmpty

/-- One record of `subjects_data` as consumed by
`TimeTableGenerator.preprocess_data`: `.get` calls on possibly missing JSON
fields become `Option` fields.  The `Course Lecturer` / `Assitant lecturer`
values are modelled after their string-to-singleton-list normalization. -/
structure Subject where
  code : Option String
  niveau : Option String
  semestre : Option String
  name : Option String
  lecturers : List String
  assistants : List String
  credit : Option Int
deriving Repr

/-- Accumulator state of the subject loop in `preprocess_data`:
the `classes` set, the `courses` dict (as insertion list, later entries
overwrite), the `teachers` set and the per-class curriculum appends
(as `(class_name, code)` pairs in insertion order). -/
structure PreAcc where
  classAcc : List String
  coursesAcc : List (String × CourseInfo)
  teacherAcc : List String
  currAcc : List (String × String)

/-- The eagerly evaluated default of
`subject.get('semestre', 's1' if int(code[-1]) <= 5 else 's2')`
(line 96): `none` models the `ValueError` that `int` raises when the last
character of the code is not a digit, which aborts `preprocess_data`. -/
def semesterDefault (code : String) : Option String :=
  match code.toList.getLast? with
  | some c => if c.isDigit then some (if c.toNat - 48 ≤ 5 then "s1" else "s2") else none
  | none => none

/-- The default of `subject.get('niveau', code[3] if len(code) > 3 else '1')`
(line 95). -/
def levelDefault (code : String) : String :=
  if code.length > 3 then String.singleton (code.toList.getD 3 ' ') else "1"

/-- `[l.strip() for l in lecturers if l and isinstance(l, str) and l.strip()]`
(lines 116-117). -/
def stripValid (l : List String) : List String :=
  (l.filter fun s => decide (¬(s = "") ∧ ¬(pyStrip s = ""))).map fun s => pyStrip s

/-- One iteration of the subject loop of `preprocess_data` (lines 89-127).
A subject without a (truthy) code is skipped; a code whose last character is
not a digit raises inside the eager `semestre` default and aborts. -/
def stepSubject (acc : PreAcc) (s : Subject) : Option PreAcc :=
  match s.code with
  | none => some acc
  | some code =>
    if code = "" then some acc
    else
      match semesterDefault code with
      | none => none
      | some semDef =>
        let level := s.niveau.getD (levelDefault code)
        let semester := s.semestre.getD semDef
        let className := "L" ++ level ++ "_" ++ semester
        let validLect := stripValid s.lecturers
        let validAssist := stripValid s.assistants
        some
          { classAcc := acc.classAcc ++ [className]
            coursesAcc := acc.coursesAcc ++
              [(code,
                { name := s.name.getD "Sans nom"
                  lecturers := validLect
                  assistants := validAssist
                  credit := s.credit.getD 0 })]
            teacherAcc := acc.teacherAcc ++ validLect ++ validAssist
            currAcc := acc.currAcc ++ [(className, code)] }

/-- The subject loop of `preprocess_data`; any raised exception aborts the
whole method (its `except` clause returns `False`). -/
def runSubjects : PreAcc → List Subject → Option PreAcc
  | acc, [] => some acc
  | acc, s :: rest =>
    match stepSubject acc s with
    | none => none
    | some acc2 => runSubjects acc2 rest

/-- Ascending insertion into a sorted list of strings. -/
def insertSorted (s : String) : List String → List String
  | [] => [s]
  | t :: ts => if s ≤ t then s :: t :: ts else t :: insertSorted s ts

/-- Python `sorted` on a list of strings. -/
def sortStrings (l : List String) : List String :=
  l.foldr insertSorted []

/-- `TimeTableGenerator.preprocess_data` (lines 76-150): rooms come from
entries of `rooms_data['Informatique']` that carry a `num` field; classes,
courses, teachers and the curriculum come from the subject loop; the days
and periods are copied from the static configuration of `__init__`.
Returns `none` when the loop raises (the method then returns `False`). -/
def preprocess (roomsIn : List (Option String)) (subjects : List Subject) :
    Option ProcessedData :=
  (runSubjects ⟨[], [], [], []⟩ subjects).map fun acc =>
    { classes := sortStrings (firstDedup acc.classAcc)
      courses := fun code =>
        (acc.coursesAcc.reverse.find? fun e => e.1 == code).map fun e => e.2
      teachers := sortStrings (firstDedup acc.teacherAcc)
      rooms := roomsIn.filterMap id
      curriculum := fun cl => (acc.currAcc.filter fun e => e.1 == cl).map fun e => e.2
      days := defaultDays
      periods := defaultPeriods }

/-- A course taught by the single teacher `"T"`, for the spec's two-course
Monday scenario. -/
def scenarioCourse (nm : String) : CourseInfo :=
  { name := nm, lecturers := ["T"], assistants := [], credit := 3 }

/-- The spec's scenario: one class with curriculum `[C1, C2]`, one room, one
teacher eligible for both courses, and only the two Monday slots of period
weights 1 and 2. -/
def scenarioPd : ProcessedData :=
  { classes := ["L1_s1"]
    courses := fun c =>
      if c = "C1" then some (scenarioCourse "Algebra")
      else if c = "C2" then some (scenarioCourse "Analysis") else none
    teachers := ["T"]
    rooms := ["R"]
    curriculum := fun c => if c = "L1_s1" then ["C1", "C2"] else []
    days := ["Lundi"]
    periods := [("07:00-09:55", 1), ("10:05-12:55", 2)] }

/-- A feasible placement for the scenario: `C1` in the first Monday period,
`C2` in the second. -/
def scenarioSol : List Key :=
  [⟨"L1_s1", "C1", "T", "R", "Lundi", "07:00-09:55"⟩,
   ⟨"L1_s1", "C2", "T", "R", "Lundi", "10:05-12:55"⟩]

/-- A course whose lecturer and assistant lists are both empty, so that the
sentinel teacher is substituted at variable-construction time. -/
def noTeacherCourse (nm : String) : CourseInfo :=
  { name := nm, lecturers := [], assistants := [], credit := 2 }

/-- Two classes, each with one teacherless course, two rooms, and a single
Monday slot.  `teachers` is empty because `preprocess_data` collects only
listed lecturers and assistants: the sentinel never enters the teacher
universe. -/
def pdSentinelA : ProcessedData :=
  { classes := ["A", "B"]
    courses := fun c =>
      if c = "c1" then some (noTeacherCourse "N1")
      else if c = "c2" then some (noTeacherCourse "N2") else none
    teachers := []
    rooms := ["r1", "r2"]
    curriculum := fun c => if c = "A" then ["c1"] else if c = "B" then ["c2"] else []
    days := ["Lundi"]
    periods := [("07:00-09:55", 1)] }

/-- The only kind of solution `pdSentinelA` admits: both sentinel-taught
courses in the single slot, in different rooms. -/
def sentinelSolA : List Key :=
  [⟨"A", "c1", "Non assigné", "r1", "Lundi", "07:00-09:55"⟩,
   ⟨"B", "c2", "Non assigné", "r2", "Lundi", "07:00-09:55"⟩]

/-- A second sentinel model with different identifiers, used for the
unassigned-teacher fallback claim: classes `X`, `Y` with teacherless courses
`m1`, `m2`, rooms `s1`, `s2`, one Tuesday slot of weight 2. -/
def pdSentinelB : ProcessedData :=
  { classes := ["X", "Y"]
    courses := fun c =>
      if c = "m1" then some (noTeacherCourse "M1")
      else if c = "m2" then some (noTeacherCourse "M2") else none
    teachers := []
    rooms := ["s1", "s2"]
    curriculum := fun c => if c = "X" then ["m1"] else if c = "Y" then ["m2"] else []
    days := ["Mardi"]
    periods := [("10:05-12:55", 2)] }

/-- A satisfying solution for `pdSentinelB` with both sentinel-taught courses
in the same slot. -/
def sentinelSolB : List Key :=
  [⟨"X", "m1", "Non assigné", "s1", "Mardi", "10:05-12:55"⟩,
   ⟨"Y", "m2", "Non assigné", "s2", "Mardi", "10:05-12:55"⟩]

/-- One class with two one-teacher courses sharing the single room and single
slot: used to exercise the extraction loop on two colliding true variables. -/
def pdOverwrite : ProcessedData :=
  { classes := ["Z"]
    courses := fun c =>
      if c = "k1" then
        some { name := "Name1", lecturers := ["Tz"], assistants := [], credit := 1 }
      else if c = "k2" then
        some { name := "Name2", lecturers := ["Tz"], assistants := [], credit := 1 }
      else none
    teachers := ["Tz"]
    rooms := ["Rz"]
    curriculum := fun c => if c = "Z" then ["k1", "k2"] else []
    days := ["Dz"]
    periods := [("Pz", 1)] }

/-- One class whose curriculum has two distinct courses but whose week has a
single slot: the pigeonhole-infeasible configuration. -/
def pdPigeon : ProcessedData :=
  { classes := ["W"]
    courses := fun c =>
      if c = "a1" then
        some { name := "A1", lecturers := ["T8"], assistants := [], credit := 1 }
      else if c = "a2" then
        some { name := "A2", lecturers := ["T8"], assistants := [], credit := 1 }
      else none
    teachers := ["T8"]
    rooms := ["R8"]
    curriculum := fun c => if c = "W" then ["a1", "a2"] else []
    days := ["D8"]
    periods := [("P8", 1)] }

/-- A subject record without a `code` field: `preprocess_data` line 91 skips
it silently. -/
def sNoCode : Subject :=
  { code := none, niveau := some "1", semestre := some "s1", name := some "Ghost",
    lecturers := ["X"], assistants := [], credit := some 2 }

/-- A subject with a code but no eligible teachers. -/
def sCoded : Subject :=
  { code := some "INF111", niveau := some "1", semestre := some "s1",
    name := some "Algo", lecturers := [], assistants := [], credit := some 4 }

lemma mem_firstDedupAux {α : Type} [DecidableEq α] (l : List α) :
    ∀ (seen : List α) (x : α), x ∈ firstDedupAux seen l ↔ x ∈ l ∧ x ∉ seen := by
  induction l with
  | nil => intro seen x; simp [firstDedupAux]
  | cons a as ih =>
    intro seen x
    by_cases ha : a ∈ seen
    · simp only [firstDedupAux, if_pos ha, ih, List.mem_cons]
      constructor
      · rintro ⟨hx, hs⟩; exact ⟨Or.inr hx, hs⟩
      · rintro ⟨hx | hx, hs⟩
        · exact absurd ha (hx ▸ hs)
        · exact ⟨hx, hs⟩
    · simp only [firstDedupAux, if_neg ha, List.mem_cons, ih]
      constructor
      · rintro (rfl | ⟨hx, hs⟩)
        · exact ⟨Or.inl rfl, ha⟩
        · exact ⟨Or.inr hx, fun hm => hs (Or.inr hm)⟩
      · rintro ⟨rfl | hx, hs⟩
        · exact Or.inl rfl
        · by_cases hxa : x = a
          · exact Or.inl hxa
          · refine Or.inr ⟨hx, fun hm => ?_⟩
            rcases hm with h1 | h2
            · exact hxa h1
            · exact hs h2

lemma mem_firstDedup {α : Type} [DecidableEq α] (l : List α) (x : α) :
    x ∈ firstDedup l ↔ x ∈ l := by
  simp [firstDedup, mem_firstDedupAux]

lemma nodup_firstDedupAux {α : Type} [DecidableEq α] (l : List α) :
    ∀ seen : List α, (firstDedupAux seen l).Nodup := by
  induction l with
  | nil => intro seen; simp [firstDedupAux]
  | cons a as ih =>
    intro seen
    by_cases ha : a ∈ seen
    · simpa [firstDedupAux, if_pos ha] using ih seen
    · rw [firstDedupAux, if_neg ha, List.nodup_cons]
      refine ⟨fun hmem => ?_, ih (a :: seen)⟩
      exact ((mem_firstDedupAux as (a :: seen) a).mp hmem).2 (List.mem_cons_self a seen)

lemma nodup_assignmentKeys (pd : ProcessedData) : (assignmentKeys pd).Nodup :=
  nodup_firstDedupAux _ _

/-- Shape of every assignment variable: characterization of membership in the
key set built by `create_model`'s variable loop. -/
lemma mem_assignmentKeys (pd : ProcessedData) (k : Key) :
    k ∈ assignmentKeys pd ↔
      k.cls ∈ pd.classes ∧ k.course ∈ pd.curriculum k.cls ∧
      k.teacher ∈ validTeachers pd k.course ∧ k.room ∈ pd.rooms ∧
      k.day ∈ pd.days ∧ k.period ∈ pd.periods.map Prod.fst := by
  rw [assignmentKeys, mem_firstDedup, buildAssignments]
  simp only [List.mem_flatMap, List.mem_map]
  constructor
  · rintro ⟨cl, hcl, co, hco, t, ht, r, hr, d, hd, pw, hpw, rfl⟩
    exact ⟨hcl, hco, ht, hr, hd, pw, hpw, rfl⟩
  · rintro ⟨hcl, hco, ht, hr, hd, pw, hpw, hps⟩
    exact ⟨k.cls, hcl, k.course, hco, k.teacher, ht, k.room, hr, k.day, hd, pw, hpw,
      by cases k; cases hps; rfl⟩

lemma satB_parts {pd : ProcessedData} {σ : Key → Bool} (h : satB pd σ = true) :
    exactlyOneOK pd σ = true ∧ classSlotOK pd σ = true ∧
      roomSlotOK pd σ = true ∧ teacherSlotOK pd σ = true := by
  rw [satB] at h
  simp only [Bool.and_eq_true] at h
  exact ⟨h.1.1.1, h.1.1.2, h.1.2, h.2⟩

/-- Family-1 content of a satisfying assignment: every nonempty
`(class, course)` group has exactly one true variable. -/
lemma exactlyOne_of_satB {pd : ProcessedData} {σ : Key → Bool}
    (h : satB pd σ = true) {cl co : String} (hcl : cl ∈ pd.classes)
    (hco : co ∈ pd.curriculum cl) (hne : groupCC pd cl co ≠ []) :
    countTrue σ (groupCC pd cl co) = 1 := by
  have h1 := (satB_parts h).1
  rw [exactlyOneOK, List.all_eq_true] at h1
  have h2 := List.all_eq_true.mp (h1 cl hcl) co hco
  rcases Bool.or_eq_true_iff.mp h2 with hemp | hcnt
  · exact absurd (List.isEmpty_iff.mp hemp) hne
  · exact of_decide_eq_true hcnt

/-- Family-2 content of a satisfying assignment, for the loop-visited
`(class, day, period)` triples. -/
lemma classSlot_of_satB {pd : ProcessedData} {σ : Key → Bool}
    (h : satB pd σ = true) {cl d : String} {pw : String × Int}
    (hcl : cl ∈ pd.classes) (hd : d ∈ pd.days) (hpw : pw ∈ pd.periods) :
    countTrue σ (groupClassSlot pd cl d pw.1) ≤ 1 := by
  have h1 := (satB_parts h).2.1
  rw [classSlotOK, List.all_eq_true] at h1
  have h2 := List.all_eq_true.mp (List.all_eq_true.mp (h1 cl hcl) d hd) pw hpw
  rcases Bool.or_eq_true_iff.mp h2 with hemp | hcnt
  · rw [countTrue, List.isEmpty_iff.mp hemp]; simp
  · exact of_decide_eq_true hcnt

/-- Family-3 content of a satisfying assignment, for the loop-visited
`(room, day, period)` triples. -/
lemma roomSlot_of_satB {pd : ProcessedData} {σ : Key → Bool}
    (h : satB pd σ = true) {r d : String} {pw : String × Int}
    (hr : r ∈ pd.rooms) (hd : d ∈ pd.days) (hpw : pw ∈ pd.periods) :
    countTrue σ (groupRoomSlot pd r d pw.1) ≤ 1 := by
  have h1 := (satB_parts h).2.2.1
  rw [roomSlotOK, List.all_eq_true] at h1
  have h2 := List.all_eq_true.mp (List.all_eq_true.mp (h1 r hr) d hd) pw hpw
  rcases Bool.or_eq_true_iff.mp h2 with hemp | hcnt
  · rw [countTrue, List.isEmpty_iff.mp hemp]; simp
  · exact of_decide_eq_true hcnt

/-- Family-4 content of a satisfying assignment, for the loop-visited
`(teacher, day, period)` triples: only teachers of the processed teacher
universe are visited. -/
lemma teacherSlot_of_satB {pd : ProcessedData} {σ : Key → Bool}
    (h : satB pd σ = true) {t d : String} {pw : String × Int}
    (ht : t ∈ pd.teachers) (hd : d ∈ pd.days) (hpw : pw ∈ pd.periods) :
    countTrue σ (groupTeacherSlot pd t d pw.1) ≤ 1 := by
  have h1 := (satB_parts h).2.2.2
  rw [teacherSlotOK, List.all_eq_true] at h1
  have h2 := List.all_eq_true.mp (List.all_eq_true.mp (h1 t ht) d hd) pw hpw
  rcases Bool.or_eq_true_iff.mp h2 with hemp | hcnt
  · rw [countTrue, List.isEmpty_iff.mp hemp]; simp
  · exact of_decide_eq_true hcnt

lemma countP_filter_eq {α : Type} (l : List α) (p q : α → Bool) :
    (l.filter p).countP q = l.countP fun a => p a && q a := by
  induction l with
  | nil => rfl
  | cons a t ih =>
    by_cases h : p a <;>
      simp [List.filter_cons, h, List.countP_cons, ih]

lemma count_map_eq_countP {α β : Type} [DecidableEq β] (f : α → β) (l : List α)
    (b : β) : (l.map f).count b = l.countP fun a => f a == b := by
  induction l with
  | nil => rfl
  | cons a t ih => simp [List.count_cons, List.countP_cons, ih, List.map_cons]

lemma two_le_length_of_two_mem {α : Type} [DecidableEq α] {x y : α} {l : List α}
    (hx : x ∈ l) (hy : y ∈ l) (hne : x ≠ y) : 2 ≤ l.length := by
  have hnod : ([x, y] : List α).Nodup := by simp [hne]
  have hsub : ([x, y] : List α) ⊆ l := by
    intro a ha
    rcases (by simpa using ha : a = x ∨ a = y) with rfl | rfl
    · exact hx
    · exact hy
  simpa using (hnod.subperm hsub).length_le

/-- All `(day, period_label)` pairs of a week configuration. -/
def pairsOf (ds ps : List String) : List (String × String) :=
  ds.flatMap fun d => ps.map fun p => (d, p)

lemma mem_pairsOf {ds ps : List String} {x : String × String} :
    x ∈ pairsOf ds ps ↔ x.1 ∈ ds ∧ x.2 ∈ ps := by
  cases x with
  | mk a b =>
    simp only [pairsOf, List.mem_flatMap, List.mem_map]
    constructor
    · rintro ⟨d, hd, p, hp, h⟩
      cases h; exact ⟨hd, hp⟩
    · rintro ⟨ha, hb⟩
      exact ⟨a, ha, b, hb, rfl⟩

lemma length_pairsOf (ds ps : List String) :
    (pairsOf ds ps).length = ds.length * ps.length := by
  induction ds with
  | nil => simp [pairsOf]
  | cons d t ih =>
    rw [pairsOf, List.flatMap_cons, List.length_append, List.length_map,
      show (t.flatMap fun d => ps.map fun p => (d, p)) = pairsOf t ps from rfl,
      ih, List.length_cons]
    ring

lemma extractTimetable_foldl (pd : ProcessedData) (σ : Key → Bool)
    (cl d p : String) (l : List Key) (acc : Timetable) :
    (l.foldl (fun acc k => if σ k then tableInsert acc k (entryOf pd k) else acc)
        acc) cl d p =
      match l.reverse.find? fun k =>
          σ k && (k.cls == cl && k.day == d && k.period == p) with
      | some k => some (entryOf pd k)
      | none => acc cl d p := by
  induction l generalizing acc with
  | nil => rfl
  | cons a t ih =>
    rw [List.foldl_cons, ih, List.reverse_cons, List.find?_append]
    cases hfind : t.reverse.find? fun k =>
        σ k && (k.cls == cl && k.day == d && k.period == p) with
    | some k => rfl
    | none =>
      simp only [Option.none_or, List.find?_cons, List.find?_nil]
      by_cases hσ : σ a
      · by_cases hm : (a.cls == cl && a.day == d && a.period == p) = true
        · simp [hσ, hm, tableInsert]
        · simp [hσ, hm, tableInsert]
      · simp [hσ]

lemma objCoeff_find (pd : ProcessedData) (k : Key) (hk : k ∈ assignmentKeys pd) :
    ∃ pw : String × Int, (pd.periods.find? fun x => x.1 == k.period) = some pw ∧
      pw.1 = k.period ∧ pw ∈ pd.periods ∧ objCoeff pd k = 5 - pw.2 := by
  have hper : k.period ∈ pd.periods.map Prod.fst :=
    ((mem_assignmentKeys pd k).mp hk).2.2.2.2.2
  rcases List.mem_map.mp hper with ⟨pw0, hpw0, hfst⟩
  have hsome : (pd.periods.find? fun x => x.1 == k.period).isSome := by
    apply List.find?_isSome.mpr
    exact ⟨pw0, hpw0, by simp [hfst]⟩
  rcases Option.isSome_iff_exists.mp hsome with ⟨pw, hpw⟩
  refine ⟨pw, hpw, ?_, List.mem_of_find?_eq_some hpw, ?_⟩
  · have hp := @List.find?_some (String × Int)
      (fun x => x.1 == k.period) pw pd.periods hpw
    simpa using hp
  · rw [objCoeff, hpw]

/-- C1 counterexample: the objective coefficient of a weight-1 slot is 4, not
`6 − 1 = 5`, and the optimal objective of the spec's two-course Monday
scenario is 7, not 9 (`create_model` line 240 computes `5 - w`). -/
theorem c1_weight_formula_counterexample :
    objCoeff scenarioPd ⟨"L1_s1", "C1", "T", "R", "Lundi", "07:00-09:55"⟩ = 4 ∧
    ¬ objCoeff scenarioPd ⟨"L1_s1", "C1", "T", "R", "Lundi", "07:00-09:55"⟩ = 6 - 1 ∧
    optValue scenarioPd = some 7 ∧ ¬ optValue scenarioPd = some 9 := by
  refine ⟨by decide, by decide, by decide, by decide⟩

/-- C1 amended: for every assignment variable the objective weight is
`5 − period_weight` of the variable's slot (so weight 1 contributes 4 and
weight 5 contributes 0), and in the spec's two-course Monday scenario the
optimal objective value is 7. -/
theorem c1_objective_weight_amended :
    (∀ (pd : ProcessedData) (k : Key), k ∈ assignmentKeys pd →
      ∃ pw : String × Int, (pd.periods.find? fun x => x.1 == k.period) = some pw ∧
        objCoeff pd k = 5 - pw.2) ∧
    optValue scenarioPd = some 7 := by
  constructor
  · intro pd k hk
    rcases objCoeff_find pd k hk with ⟨pw, hfind, _, _, hco⟩
    exact ⟨pw, hfind, hco⟩
  · decide

/-- C1 witness: the amended weight formula instantiated at a concrete
variable of the scenario model. -/
theorem c1_objective_weight_amended_witness :
    ∃ pw : String × Int,
      (scenarioPd.periods.find? fun x =>
        x.1 == (⟨"L1_s1", "C1", "T", "R", "Lundi", "07:00-09:55"⟩ : Key).period) =
          some pw ∧
      objCoeff scenarioPd ⟨"L1_s1", "C1", "T", "R", "Lundi", "07:00-09:55"⟩ =
        5 - pw.2 :=
  c1_objective_weight_amended.1 scenarioPd
    ⟨"L1_s1", "C1", "T", "R", "Lundi", "07:00-09:55"⟩ (by decide)

/-- C2: in any satisfying (hence any returned `OPTIMAL`/`FEASIBLE`) solution,
every `(class, course)` pair of the curriculum that has at least one
assignment variable has exactly one true variable. -/
theorem c2_exactly_one_per_class_course (pd : ProcessedData) (σ : Key → Bool)
    (hsat : satB pd σ = true) (cl : String) (hcl : cl ∈ pd.classes)
    (co : String) (hco : co ∈ pd.curriculum cl)
    (hne : groupCC pd cl co ≠ []) :
    countTrue σ (groupCC pd cl co) = 1 :=
  exactlyOne_of_satB hsat hcl hco hne

/-- C2 witness: instantiated at the scenario model and its solution. -/
theorem c2_exactly_one_per_class_course_witness :
    countTrue (ofKeySet scenarioSol) (groupCC scenarioPd "L1_s1" "C1") = 1 :=
  c2_exactly_one_per_class_course scenarioPd (ofKeySet scenarioSol) (by decide)
    "L1_s1" (by decide) "C1" (by decide) (by decide)

/-- C3 counterexample: a satisfying, objective-optimal solution of a model
with two teacherless courses and one slot in which the sentinel teacher
`"Non assigné"` has two true variables on the same `(teacher, slot)` pair:
the teacher-conflict loop iterates only over `processed_data['teachers']`,
which never contains the sentinel. -/
theorem c3_sentinel_conflict_counterexample :
    satB pdSentinelA (ofKeySet sentinelSolA) = true ∧
    objValue pdSentinelA (ofKeySet sentinelSolA) = 8 ∧
    optValue pdSentinelA = some 8 ∧
    countTrue (ofKeySet sentinelSolA)
      (groupTeacherSlot pdSentinelA unassignedTeacher "Lundi" "07:00-09:55") = 2 :=
  ⟨by decide, by decide, by decide, by decide⟩

/-- C3 amended: every satisfying solution has at most one true variable per
`(class, slot)` pair and per `(room, slot)` pair; per `(teacher, slot)` the
bound holds for every teacher of the processed teacher universe, while
variables of the sentinel teacher (which is outside that universe) are not
covered. -/
theorem c3_at_most_one_amended (pd : ProcessedData) (σ : Key → Bool)
    (hsat : satB pd σ = true) :
    (∀ cl d p, countTrue σ (groupClassSlot pd cl d p) ≤ 1) ∧
    (∀ r d p, countTrue σ (groupRoomSlot pd r d p) ≤ 1) ∧
    (∀ t d p, t ∈ pd.teachers → countTrue σ (groupTeacherSlot pd t d p) ≤ 1) := by
  refine ⟨fun cl d p => ?_, fun r d p => ?_, fun t d p ht => ?_⟩
  · by_cases hg : groupClassSlot pd cl d p = []
    · simp [countTrue, hg]
    · obtain ⟨k, hk⟩ := List.exists_mem_of_ne_nil _ hg
      obtain ⟨hkeys, hpred⟩ := List.mem_filter.mp hk
      have hc : (k.cls = cl ∧ k.day = d) ∧ k.period = p := by
        simpa [Bool.and_eq_true] using hpred
      obtain ⟨⟨hc1, hc2⟩, hc3⟩ := hc
      have hshape := (mem_assignmentKeys pd k).mp hkeys
      have hclm : cl ∈ pd.classes := hc1 ▸ hshape.1
      have hdm : d ∈ pd.days := hc2 ▸ hshape.2.2.2.2.1
      rcases List.mem_map.mp hshape.2.2.2.2.2 with ⟨pw, hpw, hfst⟩
      have hb := classSlot_of_satB hsat hclm hdm hpw
      rwa [hfst, hc3] at hb
  · by_cases hg : groupRoomSlot pd r d p = []
    · simp [countTrue, hg]
    · obtain ⟨k, hk⟩ := List.exists_mem_of_ne_nil _ hg
      obtain ⟨hkeys, hpred⟩ := List.mem_filter.mp hk
      have hc : (k.room = r ∧ k.day = d) ∧ k.period = p := by
        simpa [Bool.and_eq_true] using hpred
      obtain ⟨⟨hc1, hc2⟩, hc3⟩ := hc
      have hshape := (mem_assignmentKeys pd k).mp hkeys
      have hrm : r ∈ pd.rooms := hc1 ▸ hshape.2.2.2.1
      have hdm : d ∈ pd.days := hc2 ▸ hshape.2.2.2.2.1
      rcases List.mem_map.mp hshape.2.2.2.2.2 with ⟨pw, hpw, hfst⟩
      have hb := roomSlot_of_satB hsat hrm hdm hpw
      rwa [hfst, hc3] at hb
  · by_cases hg : groupTeacherSlot pd t d p = []
    · simp [countTrue, hg]
    · obtain ⟨k, hk⟩ := List.exists_mem_of_ne_nil _ hg
      obtain ⟨hkeys, hpred⟩ := List.mem_filter.mp hk
      have hc : (k.teacher = t ∧ k.day = d) ∧ k.period = p := by
        simpa [Bool.and_eq_true] using hpred
      obtain ⟨⟨hc1, hc2⟩, hc3⟩ := hc
      have hshape := (mem_assignmentKeys pd k).mp hkeys
      have hdm : d ∈ pd.days := hc2 ▸ hshape.2.2.2.2.1
      rcases List.mem_map.mp hshape.2.2.2.2.2 with ⟨pw, hpw, hfst⟩
      have hb := teacherSlot_of_satB hsat ht hdm hpw
      rwa [hfst, hc3] at hb

/-- C3 witness: the class-slot bound instantiated at the scenario model and
its solution. -/
theorem c3_at_most_one_amended_witness :
    countTrue (ofKeySet scenarioSol)
      (groupClassSlot scenarioPd "L1_s1" "Lundi" "07:00-09:55") ≤ 1 :=
  (c3_at_most_one_amended scenarioPd (ofKeySet scenarioSol) (by decide)).1
    "L1_s1" "Lundi" "07:00-09:55"

/-- C4 counterexample: a satisfying and optimal solution in which two
sentinel-taught sessions occupy the same `(teacher, slot)` pair, refuting
that the sentinel is subject to the per-(teacher, slot) exclusivity
constraint. -/
theorem c4_sentinel_not_constrained_counterexample :
    satB pdSentinelB (ofKeySet sentinelSolB) = true ∧
    objValue pdSentinelB (ofKeySet sentinelSolB) = 6 ∧
    optValue pdSentinelB = some 6 ∧
    countTrue (ofKeySet sentinelSolB)
      (groupTeacherSlot pdSentinelB unassignedTeacher "Mardi" "10:05-12:55") = 2 :=
  ⟨by decide, by decide, by decide, by decide⟩

/-- C4 amended: a course with no eligible teachers still receives exactly one
placement in any satisfying solution (all its variables carry the sentinel
teacher), but the sentinel lies outside the processed teacher universe and is
therefore not subject to the per-(teacher, slot) exclusivity constraint. -/
theorem c4_sentinel_fallback_amended (pd : ProcessedData) (σ : Key → Bool)
    (hsat : satB pd σ = true) (cl co : String) (hcl : cl ∈ pd.classes)
    (hco : co ∈ pd.curriculum cl) (hnoteach : eligibleTeachers pd co = [])
    (hne : groupCC pd cl co ≠ []) :
    countTrue σ (groupCC pd cl co) = 1 ∧
    ∀ k ∈ groupCC pd cl co, k.teacher = unassignedTeacher := by
  refine ⟨exactlyOne_of_satB hsat hcl hco hne, fun k hk => ?_⟩
  obtain ⟨hkeys, hpred⟩ := List.mem_filter.mp hk
  have hc : k.cls = cl ∧ k.course = co := by
    simpa [Bool.and_eq_true] using hpred
  have hshape := (mem_assignmentKeys pd k).mp hkeys
  have hvt : k.teacher ∈ validTeachers pd co := hc.2 ▸ hshape.2.2.1
  have hvts : validTeachers pd co = [unassignedTeacher] := by
    simp only [validTeachers, teachersForCourse, hnoteach]
    rfl
  rw [hvts] at hvt
  simpa using hvt

/-- C4 witness: exactly one placement for the teacherless course `m1` in the
satisfying solution of the second sentinel model. -/
theorem c4_sentinel_fallback_amended_witness :
    countTrue (ofKeySet sentinelSolB) (groupCC pdSentinelB "X" "m1") = 1 :=
  (c4_sentinel_fallback_amended pdSentinelB (ofKeySet sentinelSolB) (by decide)
    "X" "m1" (by decide) (by decide) (by decide) (by decide)).1

/-- C6 counterexample: `create_model` surfaces `INFEASIBLE` and the timeout
status `UNKNOWN` identically to its caller — both are mapped to the same
failure outcome (`return False`), so the two conditions are conflated. -/
theorem c6_status_conflation_counterexample :
    solveReturn scenarioPd CpStatus.infeasible (fun _ => false) = none ∧
    solveReturn scenarioPd CpStatus.unknown (fun _ => false) = none ∧
    solveReturn scenarioPd CpStatus.infeasible (fun _ => false) =
      solveReturn scenarioPd CpStatus.unknown (fun _ => false) :=
  ⟨rfl, rfl, rfl⟩

/-- C6 amended: the caller of `create_model` receives a result exactly for
statuses `OPTIMAL` and `FEASIBLE`; every other status, in particular
`INFEASIBLE` and timeout-without-solution (`UNKNOWN`), is mapped to the same
`False` return, so the two are not distinguishable by the caller. -/
theorem c6_solve_return_amended (pd : ProcessedData) (st : CpStatus)
    (σ : Key → Bool) :
    ((solveReturn pd st σ).isSome = true ↔
      st = CpStatus.optimal ∨ st = CpStatus.feasible) ∧
    solveReturn pd CpStatus.infeasible σ = solveReturn pd CpStatus.unknown σ := by
  constructor
  · cases st <;> simp [solveReturn]
  · rfl

/-- C7 counterexample: on two true variables colliding on the same
`(class, slot)`, the extraction loop silently keeps the later-iterated one
(`k2`) and discards the earlier (`k1`); no fault is reported. -/
theorem c7_extraction_overwrite_counterexample :
    countTrue (fun _ => true) (groupClassSlot pdOverwrite "Z" "Dz" "Pz") = 2 ∧
    extractTimetable pdOverwrite (fun _ => true) "Z" "Dz" "Pz" =
      some { course := "k2", teacher := "Tz", room := "Rz",
             course_name := "Name2" } ∧
    ¬ extractTimetable pdOverwrite (fun _ => true) "Z" "Dz" "Pz" =
      some { course := "k1", teacher := "Tz", room := "Rz",
             course_name := "Name1" } :=
  ⟨by decide, by decide, by decide⟩

/-- C7 amended: the extraction loop reports no fault on a `(class, slot)`
collision; the produced cell is always the entry of the last true variable in
dict iteration order that matches the queried `(class, day, period)`. -/
theorem c7_extraction_last_wins (pd : ProcessedData) (σ : Key → Bool)
    (cl d p : String) :
    extractTimetable pd σ cl d p =
      ((assignmentKeys pd).reverse.find? fun k =>
        σ k && (k.cls == cl && k.day == d && k.period == p)).map (entryOf pd) := by
  rw [extractTimetable, extractTimetable_foldl]
  cases hf : (assignmentKeys pd).reverse.find? fun k =>
      σ k && (k.cls == cl && k.day == d && k.period == p) with
  | some k => rfl
  | none => rfl

/-- C9: an assignment variable exists exactly for the combinations where the
course belongs to the class's curriculum and the teacher is in the course's
eligible list (lecturers plus assistants, or the sentinel when that list is
empty) and survives the blank-name skip; rooms, days and periods range over
the configured universes.  No variable exists for any other combination. -/
theorem c9_variable_space_eligibility (pd : ProcessedData) (k : Key) :
    k ∈ assignmentKeys pd ↔
      k.cls ∈ pd.classes ∧ k.course ∈ pd.curriculum k.cls ∧
      k.teacher ∈ teachersForCourse pd k.course ∧ ¬(pyStrip k.teacher = "") ∧
      k.room ∈ pd.rooms ∧ k.day ∈ pd.days ∧
      k.period ∈ pd.periods.map Prod.fst := by
  rw [mem_assignmentKeys]
  constructor
  · rintro ⟨h1, h2, h3, h4, h5, h6⟩
    obtain ⟨ht, hstrip⟩ := List.mem_filter.mp h3
    exact ⟨h1, h2, ht, of_decide_eq_true hstrip, h4, h5, h6⟩
  · rintro ⟨h1, h2, ht, hstrip, h4, h5, h6⟩
    exact ⟨h1, h2, List.mem_filter.mpr ⟨ht, decide_eq_true hstrip⟩, h4, h5, h6⟩

/-- C10: for every assignment variable the period of its key is found among
the configured periods, so the objective-weight lookup never takes its
fallback default 0: the coefficient is always `5 − w` of the first matching
configured period; under the process-wide static configuration the period is
one of the five labels of `__init__`. -/
theorem c10_objective_weight_lookup_total (pd : ProcessedData) (k : Key)
    (hk : k ∈ assignmentKeys pd) :
    (∃ pw : String × Int, (pd.periods.find? fun x => x.1 == k.period) = some pw ∧
      pw.1 = k.period ∧ pw ∈ pd.periods ∧ objCoeff pd k = 5 - pw.2) ∧
    (pd.periods = defaultPeriods → k.period ∈ defaultPeriods.map Prod.fst) := by
  refine ⟨objCoeff_find pd k hk, fun hdef => ?_⟩
  have hper : k.period ∈ pd.periods.map Prod.fst :=
    ((mem_assignmentKeys pd k).mp hk).2.2.2.2.2
  rwa [hdef] at hper

/-- C10 witness: the lookup instantiated at a concrete variable of the
scenario model. -/
theorem c10_objective_weight_lookup_total_witness :
    ∃ pw : String × Int,
      (scenarioPd.periods.find? fun x =>
        x.1 == (⟨"L1_s1", "C2", "T", "R", "Lundi", "10:05-12:55"⟩ : Key).period) =
          some pw ∧
      pw.1 = (⟨"L1_s1", "C2", "T", "R", "Lundi", "10:05-12:55"⟩ : Key).period ∧
      pw ∈ scenarioPd.periods ∧
      objCoeff scenarioPd ⟨"L1_s1", "C2", "T", "R", "Lundi", "10:05-12:55"⟩ =
        5 - pw.2 :=
  (c10_objective_weight_lookup_total scenarioPd
    ⟨"L1_s1", "C2", "T", "R", "Lundi", "10:05-12:55"⟩ (by decide)).1

/-- C5 counterexample: domain-model construction succeeds (no `MalformedInput`
condition is raised) on an input whose first subject lacks a course code
(it is silently skipped), whose room universe is empty, and whose teacher
universe comes out empty. -/
theorem c5_no_malformed_input_check :
    (preprocess [] [sNoCode, sCoded]).isSome = true ∧
    (preprocess [] [sNoCode, sCoded]).map (fun pd => pd.rooms) = some [] ∧
    (preprocess [] [sNoCode, sCoded]).map (fun pd => pd.teachers) = some [] ∧
    (preprocess [] [sNoCode, sCoded]).map (fun pd => pd.classes) = some ["L1_s1"] ∧
    (preprocess [] [sNoCode, sCoded]).map (fun pd => pd.curriculum "L1_s1") =
      some ["INF111"] :=
  ⟨by decide, by decide, by decide, by decide, by decide⟩

/-- C5 amended: preprocessing performs no `MalformedInput` validation: a
subject without a course code is silently skipped (the result is the same as
if it were absent), preprocessing succeeds on any input whose coded subjects
have digit-final codes (in particular with empty room and teacher universes),
and the only pre-variable-construction check is `create_model`'s refusal to
run when the class list is empty. -/
theorem c5_preprocess_amended (s : Subject) (hs : s.code = none) :
    (∀ (roomsIn : List (Option String)) (subjects : List Subject),
      preprocess roomsIn (s :: subjects) = preprocess roomsIn subjects) ∧
    (∀ roomsIn : List (Option String),
      (preprocess roomsIn ([] : List Subject)).isSome = true) ∧
    (∀ pd : ProcessedData, modelPrecheck pd = true ↔ pd.classes ≠ []) := by
  refine ⟨fun roomsIn subjects => ?_, fun roomsIn => rfl, fun pd => ?_⟩
  · rw [preprocess, preprocess, runSubjects, stepSubject, hs]
  · rw [modelPrecheck, Bool.not_eq_true']
    constructor
    · intro h
      exact fun hnil => by simp [hnil, List.isEmpty_nil] at h
    · intro h
      cases hc : pd.classes with
      | nil => exact absurd hc h
      | cons a t => rfl

lemma filter_class_true_length_le (pd : ProcessedData) (σ : Key → Bool)
    (cl : String) (hsat : satB pd σ = true) :
    ((assignmentKeys pd).filter fun k => k.cls == cl && σ k).length ≤
      pd.days.length * pd.periods.length := by
  set T := (assignmentKeys pd).filter fun k => k.cls == cl && σ k with hTdef
  have hTnodup : T.Nodup := (nodup_assignmentKeys pd).filter _
  have hmemT : ∀ k ∈ T, k ∈ assignmentKeys pd ∧ k.cls = cl ∧ σ k = true := by
    intro k hk
    obtain ⟨h1, h2⟩ := List.mem_filter.mp hk
    have h3 : k.cls = cl ∧ σ k = true := by simpa using h2
    exact ⟨h1, h3.1, h3.2⟩
  have hinj : ∀ x ∈ T, ∀ y ∈ T,
      ((x.day, x.period) = (y.day, y.period)) → x = y := by
    intro x hx y hy hxy
    by_contra hne
    obtain ⟨hxkeys, hxcls, hxσ⟩ := hmemT x hx
    obtain ⟨hykeys, hycls, hyσ⟩ := hmemT y hy
    have hday : x.day = y.day := congrArg Prod.fst hxy
    have hper : x.period = y.period := congrArg Prod.snd hxy
    have hxg : x ∈ (groupClassSlot pd cl x.day x.period).filter σ := by
      refine List.mem_filter.mpr ⟨List.mem_filter.mpr ⟨hxkeys, ?_⟩, hxσ⟩
      simp [hxcls]
    have hyg : y ∈ (groupClassSlot pd cl x.day x.period).filter σ := by
      refine List.mem_filter.mpr ⟨List.mem_filter.mpr ⟨hykeys, ?_⟩, hyσ⟩
      simp [hycls, hday, hper]
    have h2le : 2 ≤ ((groupClassSlot pd cl x.day x.period).filter σ).length :=
      two_le_length_of_two_mem hxg hyg hne
    have hcount : countTrue σ (groupClassSlot pd cl x.day x.period) ≤ 1 := by
      have hshape := (mem_assignmentKeys pd x).mp hxkeys
      have hclm : cl ∈ pd.classes := hxcls ▸ hshape.1
      have hdm : x.day ∈ pd.days := hshape.2.2.2.2.1
      rcases List.mem_map.mp hshape.2.2.2.2.2 with ⟨pw, hpw, hfst⟩
      have hb := classSlot_of_satB hsat hclm hdm hpw
      rwa [hfst] at hb
    rw [countTrue, List.countP_eq_length_filter] at hcount
    omega
  have hSnodup : (T.map fun k => (k.day, k.period)).Nodup :=
    List.Nodup.map_on hinj hTnodup
  have hSsub : (T.map fun k => (k.day, k.period)) ⊆
      pairsOf pd.days (pd.periods.map Prod.fst) := by
    intro x hx
    rcases List.mem_map.mp hx with ⟨k, hk, rfl⟩
    obtain ⟨hkeys, _, _⟩ := hmemT k hk
    have hshape := (mem_assignmentKeys pd k).mp hkeys
    exact mem_pairsOf.mpr ⟨hshape.2.2.2.2.1, hshape.2.2.2.2.2⟩
  have hlen : (T.map fun k => (k.day, k.period)).length ≤
      (pairsOf pd.days (pd.periods.map Prod.fst)).length :=
    (hSnodup.subperm hSsub).length_le
  rwa [List.length_map, length_pairsOf, List.length_map] at hlen

lemma dedup_curriculum_le_filter (pd : ProcessedData) (σ : Key → Bool)
    (cl : String) (hsat : satB pd σ = true) (hcl : cl ∈ pd.classes)
    (hrooms : pd.rooms ≠ []) (hdays : pd.days ≠ []) (hperiods : pd.periods ≠ [])
    (hteach : ∀ co ∈ pd.curriculum cl, validTeachers pd co ≠ []) :
    (pd.curriculum cl).dedup.length ≤
      ((assignmentKeys pd).filter fun k => k.cls == cl && σ k).length := by
  set T := (assignmentKeys pd).filter fun k => k.cls == cl && σ k with hTdef
  have hsubC : (pd.curriculum cl).dedup ⊆ T.map Key.course := by
    intro co hco
    have hco2 : co ∈ pd.curriculum cl := List.mem_dedup.mp hco
    obtain ⟨t, ht⟩ := List.exists_mem_of_ne_nil _ (hteach co hco2)
    obtain ⟨r, hr⟩ := List.exists_mem_of_ne_nil _ hrooms
    obtain ⟨d, hd⟩ := List.exists_mem_of_ne_nil _ hdays
    obtain ⟨pw, hpw⟩ := List.exists_mem_of_ne_nil _ hperiods
    have hk0 : (⟨cl, co, t, r, d, pw.1⟩ : Key) ∈ assignmentKeys pd := by
      rw [mem_assignmentKeys]
      exact ⟨hcl, hco2, ht, hr, hd, List.mem_map.mpr ⟨pw, hpw, rfl⟩⟩
    have hne : groupCC pd cl co ≠ [] :=
      List.ne_nil_of_mem (List.mem_filter.mpr ⟨hk0, by simp⟩)
    have hcount : countTrue σ (groupCC pd cl co) = 1 :=
      exactlyOne_of_satB hsat hcl hco2 hne
    have hpos : 0 < (groupCC pd cl co).countP σ := by
      rw [show (groupCC pd cl co).countP σ = countTrue σ (groupCC pd cl co)
        from rfl, hcount]
      exact Nat.one_pos
    obtain ⟨k, hkg, hkσ⟩ := List.countP_pos_iff.mp hpos
    obtain ⟨hkeys, hpredg⟩ := List.mem_filter.mp hkg
    have hcc : k.cls = cl ∧ k.course = co := by
      simpa [Bool.and_eq_true] using hpredg
    have hkT : k ∈ T := by
      rw [hTdef]
      exact List.mem_filter.mpr ⟨hkeys, by simp [hcc.1, hkσ]⟩
    exact List.mem_map.mpr ⟨k, hkT, hcc.2⟩
  have hlen := ((List.nodup_dedup _).subperm hsubC).length_le
  rwa [List.length_map] at hlen

/-- C8: when one class's curriculum holds more distinct courses than the week
has slots, the CP-SAT model of `create_model` is unsatisfiable: no assignment
satisfies all four constraint families, so a sound solver can never report
`OPTIMAL` or `FEASIBLE`; only the no-solution outcomes remain. -/
theorem c8_pigeonhole_unsatisfiable (pd : ProcessedData) (cl : String)
    (hcl : cl ∈ pd.classes) (hrooms : pd.rooms ≠ []) (hdays : pd.days ≠ [])
    (hperiods : pd.periods ≠ [])
    (hteach : ∀ co ∈ pd.curriculum cl, validTeachers pd co ≠ [])
    (hbig : pd.days.length * pd.periods.length <
      (pd.curriculum cl).dedup.length)
    (σ : Key → Bool) : satB pd σ = false := by
  cases hsatc : satB pd σ with
  | false => rfl
  | true =>
    exfalso
    have hlow := dedup_curriculum_le_filter pd σ cl hsatc hcl hrooms hdays
      hperiods hteach
    have hup := filter_class_true_length_le pd σ cl hsatc
    omega

/-- C8 witness: the unsatisfiability of the concrete two-course one-slot
model, instantiated at the all-true assignment. -/
theorem c8_pigeonhole_unsatisfiable_witness :
    satB pdPigeon (fun _ => true) = false :=
  c8_pigeonhole_unsatisfiable pdPigeon "W" (by decide) (by decide) (by decide)
    (by decide) (by decide) (by decide) (fun _ => true)

/-- C5 witness: the skip behaviour instantiated at the concrete code-less
subject. -/
theorem c5_preprocess_amended_witness :
    preprocess [] [sNoCode] = preprocess [] ([] : List Subject) :=
  (c5_preprocess_amended sNoCode rfl).1 [] []
